import Mathlib

/-!
# Verification of the SolidArx-Framework memory-management core

Shallow embedding of `src/core/memory_management.rs`:
the `MemoryManager` (strategy selection, pool construction, allocate,
deallocate) and the sizing functions `define_buffer_size`,
`define_pool_size`, `define_multiplier`.

Modelling conventions:
- A Rust `Box<[u8]>` buffer is a `List Nat` of byte values;
  `vec![0u8; n].into_boxed_slice()` is `List.replicate n 0`.
- The `VecDeque` pool is a `List` of buffers with the front at the head:
  `pop_front` takes the head, `push_back` appends at the end.
- `usize` values are `Nat`; `usize::MAX` on the 64-bit target is
  `2 ^ 64 - 1`.  Overflow plays no role in the translated code (the only
  arithmetic is a division), so no modular reduction is needed.
- A Rust panic (here: division by zero in `pool_size / buffer_size`)
  is modelled by `Option`: `MemoryManager.new` returns `none` exactly
  when the Rust code would panic instead of returning.
- The interactive fallback `usize_max_value` (terminal prompt reading
  stdin) is not a pure computation; entering it is modelled by the
  dedicated result constructor `SizeOutcome.interactivePrompt`.
-/

/-- Modelled from the spec: the enum `ApplicationType` lives in
`config/global_config.rs`, which is not part of the given sources.  The
spec lists it as the closed enumeration
{WebApp, ApiBackend, DesktopApp, AutomationScript, EmbeddedSystem,
Unsupported}; the wildcard arms of the source's `match` statements cover
exactly the `Unsupported` variant. -/
inductive ApplicationType where
  | WebApp
  | ApiBackend
  | DesktopApp
  | AutomationScript
  | EmbeddedSystem
  | Unsupported
deriving DecidableEq, Repr

/-- Modelled from the spec: `MemoryConfig` lives in
`config/memory_config.rs`, not part of the given sources.  The spec
gives its fields as buffer_size, pool_size and a scale multiplier; only
`buffer_size` and `pool_size` are read by the translated code. -/
structure MemoryConfig where
  buffer_size : Nat
  pool_size : Nat
  memory_scale : Nat
deriving DecidableEq, Repr

/-- The allocation strategies of `memory_management.rs`. -/
inductive AllocationStrategy where
  | Standard
  | PoolBased
  | CustomEmbedded
deriving DecidableEq, Repr

/-- The `CoreError` variants reachable from the translated functions
(from `core/system_core.rs`, used by `memory_management.rs`). -/
inductive CoreError where
  | ConfigurationError (msg : String)
  | ResourceAllocationError (msg : String)
deriving DecidableEq, Repr

/-- A buffer (`Box<[u8]>`): a list of byte values. -/
def Buffer := List Nat
deriving DecidableEq, Repr

/-- `MemoryManager` of `memory_management.rs`: default strategy,
optional pool (front of the `VecDeque` at the list head), and the
resolved memory configuration. -/
structure MemoryManager where
  default_allocation_strategy : AllocationStrategy
  pool : Option (List Buffer)
  memory_config : MemoryConfig
deriving DecidableEq, Repr

/-- The strategy-selection `match` at the top of `MemoryManager::new`
(memory_management.rs lines 88-96). -/
def selectStrategy : ApplicationType → Except CoreError AllocationStrategy
  | ApplicationType.WebApp => Except.ok AllocationStrategy.PoolBased
  | ApplicationType.ApiBackend => Except.ok AllocationStrategy.PoolBased
  | ApplicationType.DesktopApp => Except.ok AllocationStrategy.Standard
  | ApplicationType.AutomationScript => Except.ok AllocationStrategy.Standard
  | ApplicationType.EmbeddedSystem => Except.ok AllocationStrategy.CustomEmbedded
  | _ => Except.error (CoreError.ConfigurationError
      "Tipo di applicazione non supportato considera implementazione")

/-- `MemoryManager::new` (memory_management.rs lines 84-111).
`none` models a Rust panic: in the `PoolBased` branch the source
computes `memory_config.pool_size / memory_config.buffer_size`, which
panics when `buffer_size == 0`. -/
def MemoryManager.new (app_type : ApplicationType)
    (memory_config : MemoryConfig) :
    Option (Except CoreError MemoryManager) :=
  match selectStrategy app_type with
  | Except.error e => some (Except.error e)
  | Except.ok strategy =>
    match strategy with
    | AllocationStrategy.PoolBased =>
      if memory_config.buffer_size = 0 then
        none
      else
        let buffer_count := memory_config.pool_size / memory_config.buffer_size
        let buffers : List Buffer :=
          List.replicate buffer_count (List.replicate memory_config.buffer_size 0)
        some (Except.ok
          { default_allocation_strategy := strategy
            pool := some buffers
            memory_config := memory_config })
    | _ =>
      some (Except.ok
        { default_allocation_strategy := strategy
          pool := none
          memory_config := memory_config })

/-- `MemoryManager::allocate` (memory_management.rs lines 126-154).
Returns the buffer together with the updated manager state. -/
def MemoryManager.allocate (self : MemoryManager)
    (strategy : Option AllocationStrategy) (size : Nat) :
    Except CoreError (Buffer × MemoryManager) :=
  let alloc_strategy := strategy.getD self.default_allocation_strategy
  match alloc_strategy with
  | AllocationStrategy.Standard =>
    Except.ok (List.replicate size 0, self)
  | AllocationStrategy.PoolBased =>
    match self.pool with
    | some pool =>
      match pool with
      | buffer :: rest =>
        Except.ok (buffer, { self with pool := some rest })
      | [] =>
        Except.ok (List.replicate size 0, self)
    | none =>
      Except.error (CoreError.ResourceAllocationError "Pool non disponibile")
  | AllocationStrategy.CustomEmbedded =>
    Except.ok (List.replicate self.memory_config.buffer_size 0, self)

/-- `MemoryManager::deallocate` (memory_management.rs lines 169-190). -/
def MemoryManager.deallocate (self : MemoryManager) (buffer : Buffer) :
    Except CoreError MemoryManager :=
  match self.default_allocation_strategy with
  | AllocationStrategy.Standard => Except.ok self
  | AllocationStrategy.PoolBased =>
    match self.pool with
    | some pool => Except.ok { self with pool := some (pool ++ [buffer]) }
    | none =>
      Except.error (CoreError.ResourceAllocationError "Pool non disponibile")
  | AllocationStrategy.CustomEmbedded => Except.ok self

/-- `usize::MAX` on the 64-bit target. -/
def USIZE_MAX : Nat := 2 ^ 64 - 1

/-- Result of a sizing function: either a plain value, or entry into the
interactive terminal fallback `usize_max_value` (memory_management.rs
lines 194-223), which prints a prompt and blocks reading stdin. -/
inductive SizeOutcome where
  | value (v : Nat)
  | interactivePrompt
deriving DecidableEq, Repr

/-- `define_buffer_size` (memory_management.rs lines 226-242). -/
def define_buffer_size (app_type : ApplicationType) (buffer_size : Nat) :
    SizeOutcome :=
  if buffer_size > USIZE_MAX / 2 then
    SizeOutcome.interactivePrompt
  else if buffer_size ≠ 0 then
    SizeOutcome.value buffer_size
  else
    SizeOutcome.value (match app_type with
      | ApplicationType.WebApp => 16 * 1024 * 1024
      | ApplicationType.ApiBackend => 8 * 1024 * 1024
      | ApplicationType.DesktopApp => 4 * 1024 * 1024
      | ApplicationType.AutomationScript => 2 * 1024 * 1024
      | ApplicationType.EmbeddedSystem => 512 * 1024
      | _ => 0)

/-- `define_pool_size` (memory_management.rs lines 245-261). -/
def define_pool_size (app_type : ApplicationType) (pool_size : Nat) :
    SizeOutcome :=
  if pool_size > USIZE_MAX / 2 then
    SizeOutcome.interactivePrompt
  else if pool_size ≠ 0 then
    SizeOutcome.value pool_size
  else
    SizeOutcome.value (match app_type with
      | ApplicationType.WebApp => 150 * 1024 * 1024
      | ApplicationType.ApiBackend => 100 * 1024 * 1024
      | ApplicationType.DesktopApp => 50 * 1024 * 1024
      | ApplicationType.AutomationScript => 30 * 1024 * 1024
      | ApplicationType.EmbeddedSystem => 5 * 1024 * 1024
      | _ => 0)

/-- `u8::MAX`. -/
def U8_MAX : Nat := 255

/-- `define_multiplier` (memory_management.rs lines 263-305).  The
guard `memory_scale > u8::MAX` is kept although on the `u8` domain
(`memory_scale ≤ 255`) it can never hold. -/
def define_multiplier (app_type : ApplicationType) (memory_scale : Nat) :
    SizeOutcome :=
  if memory_scale > U8_MAX then
    SizeOutcome.interactivePrompt
  else if memory_scale ≠ 0 then
    SizeOutcome.value memory_scale
  else
    SizeOutcome.value (match app_type with
      | ApplicationType.WebApp => 1
      | ApplicationType.ApiBackend => 1
      | ApplicationType.DesktopApp => 1
      | ApplicationType.AutomationScript => 1
      | ApplicationType.EmbeddedSystem => 1
      | _ => 0)

/-- C1: For every ApplicationType, MemoryManager construction selects the
strategy by the pure mapping WebApp and ApiBackend to PoolBased,
DesktopApp and AutomationScript to Standard, EmbeddedSystem to
CustomEmbedded; for any other ApplicationType, construction returns a
ConfigurationError and no manager is produced. -/
theorem construction_strategy_mapping (app : ApplicationType)
    (cfg : MemoryConfig) (h : 0 < cfg.buffer_size) :
    ((app = ApplicationType.WebApp ∨ app = ApplicationType.ApiBackend) →
      ∃ m, MemoryManager.new app cfg = some (Except.ok m) ∧
        m.default_allocation_strategy = AllocationStrategy.PoolBased) ∧
    ((app = ApplicationType.DesktopApp ∨
      app = ApplicationType.AutomationScript) →
      ∃ m, MemoryManager.new app cfg = some (Except.ok m) ∧
        m.default_allocation_strategy = AllocationStrategy.Standard) ∧
    (app = ApplicationType.EmbeddedSystem →
      ∃ m, MemoryManager.new app cfg = some (Except.ok m) ∧
        m.default_allocation_strategy = AllocationStrategy.CustomEmbedded) ∧
    (app = ApplicationType.Unsupported →
      MemoryManager.new app cfg =
        some (Except.error (CoreError.ConfigurationError
          "Tipo di applicazione non supportato considera implementazione"))) := by
  have hne : cfg.buffer_size ≠ 0 := Nat.pos_iff_ne_zero.mp h
  refine ⟨?_, ?_, ?_, ?_⟩
  · rintro (rfl | rfl) <;>
      exact ⟨{ default_allocation_strategy := AllocationStrategy.PoolBased,
               pool := some (List.replicate (cfg.pool_size / cfg.buffer_size)
                 (List.replicate cfg.buffer_size 0)),
               memory_config := cfg },
             by simp [MemoryManager.new, selectStrategy, hne], rfl⟩
  · rintro (rfl | rfl) <;>
      exact ⟨{ default_allocation_strategy := AllocationStrategy.Standard,
               pool := none, memory_config := cfg },
             by simp [MemoryManager.new, selectStrategy], rfl⟩
  · rintro rfl
    exact ⟨{ default_allocation_strategy := AllocationStrategy.CustomEmbedded,
             pool := none, memory_config := cfg },
           by simp [MemoryManager.new, selectStrategy], rfl⟩
  · rintro rfl
    simp [MemoryManager.new, selectStrategy]

/-- C2: For every MemoryConfig with buffer_size > 0, constructing a
manager whose selected strategy is PoolBased yields a pool containing
exactly pool_size / buffer_size (integer division, remainder discarded)
zero-initialized buffers, each of length exactly buffer_size; when
pool_size < buffer_size the pool is present but empty; constructing
with strategy Standard or CustomEmbedded yields no pool. -/
theorem construction_pool_contents (app : ApplicationType)
    (cfg : MemoryConfig) (h : 0 < cfg.buffer_size) (m : MemoryManager)
    (hm : MemoryManager.new app cfg = some (Except.ok m)) :
    (m.default_allocation_strategy = AllocationStrategy.PoolBased →
      ∃ bufs, m.pool = some bufs ∧
        bufs.length = cfg.pool_size / cfg.buffer_size ∧
        (∀ b ∈ bufs, b = List.replicate cfg.buffer_size 0) ∧
        (cfg.pool_size < cfg.buffer_size → bufs = [])) ∧
    ((m.default_allocation_strategy = AllocationStrategy.Standard ∨
      m.default_allocation_strategy = AllocationStrategy.CustomEmbedded) →
      m.pool = none) := by
  have hne : cfg.buffer_size ≠ 0 := Nat.pos_iff_ne_zero.mp h
  cases app <;>
    simp only [MemoryManager.new, selectStrategy, if_neg hne,
      Option.some.injEq, Except.ok.injEq, reduceCtorEq] at hm
  case WebApp | ApiBackend =>
    subst hm
    refine ⟨fun _ => ⟨_, rfl, List.length_replicate _ _,
      fun b hb => List.eq_of_mem_replicate hb, fun hlt => ?_⟩, ?_⟩
    · rw [Nat.div_eq_of_lt hlt, List.replicate_zero]
    · rintro (hc | hc) <;> simp at hc
  case DesktopApp | AutomationScript | EmbeddedSystem =>
    subst hm
    exact ⟨fun hc => by simp at hc, fun _ => rfl⟩

/-- C3: For every manager state and every requested size, allocate with
effective strategy PoolBased returns the front buffer of the pool when
the pool is present and non-empty (so the returned length equals the
length of the buffer at the front, independent of the requested size);
when the pool is present but empty it returns a fresh zero-initialized
buffer of exactly the requested size; and it returns a
ResourceAllocationError if and only if the pool field is absent. -/
theorem allocate_poolBased_spec (m : MemoryManager)
    (ov : Option AllocationStrategy) (size : Nat)
    (h : ov.getD m.default_allocation_strategy =
      AllocationStrategy.PoolBased) :
    (∀ b rest, m.pool = some (b :: rest) →
      m.allocate ov size = Except.ok (b, { m with pool := some rest })) ∧
    (m.pool = some [] →
      m.allocate ov size = Except.ok (List.replicate size 0, m)) ∧
    (m.allocate ov size =
        Except.error (CoreError.ResourceAllocationError
          "Pool non disponibile") ↔
      m.pool = none) := by
  refine ⟨?_, ?_, ?_⟩
  · intro b rest hp
    simp only [MemoryManager.allocate, h, hp]
  · intro hp
    simp only [MemoryManager.allocate, h, hp]
  · cases hp : m.pool with
    | none => simp only [MemoryManager.allocate, h, hp]
    | some pool =>
      cases pool <;> simp only [MemoryManager.allocate, h, hp] <;> simp

/-- C4: deallocate dispatches only on the manager's default strategy,
never on any override used at the paired allocate call: for a manager
whose default strategy is PoolBased and whose pool is present, every
deallocate(buffer) appends that exact buffer to the back of the pool
and increases pool length by exactly 1, regardless of the buffer's
length or of which strategy override produced it; for default strategy
Standard or CustomEmbedded, deallocate returns Ok and leaves the
manager state unchanged. -/
theorem deallocate_default_dispatch (m : MemoryManager)
    (buffer : Buffer) :
    (∀ pool, m.default_allocation_strategy = AllocationStrategy.PoolBased →
      m.pool = some pool →
      m.deallocate buffer =
        Except.ok { m with pool := some (pool ++ [buffer]) } ∧
      (pool ++ [buffer]).length = pool.length + 1) ∧
    ((m.default_allocation_strategy = AllocationStrategy.Standard ∨
      m.default_allocation_strategy = AllocationStrategy.CustomEmbedded) →
      m.deallocate buffer = Except.ok m) := by
  refine ⟨?_, ?_⟩
  · intro pool hd hp
    refine ⟨?_, by simp⟩
    simp only [MemoryManager.deallocate, hd, hp]
  · rintro (hd | hd) <;> simp only [MemoryManager.deallocate, hd]

/-- C9: For every requested size, allocate with effective strategy
Standard returns Ok with a freshly allocated zero-initialized buffer of
length exactly the requested size, and allocate with effective strategy
CustomEmbedded returns Ok with a fresh buffer of length exactly the
manager's configured buffer_size, ignoring the requested size; neither
modifies the manager's state. -/
theorem allocate_standard_custom_spec (m : MemoryManager)
    (ov : Option AllocationStrategy) (size : Nat) :
    (ov.getD m.default_allocation_strategy = AllocationStrategy.Standard →
      m.allocate ov size = Except.ok (List.replicate size 0, m)) ∧
    (ov.getD m.default_allocation_strategy =
        AllocationStrategy.CustomEmbedded →
      m.allocate ov size =
        Except.ok (List.replicate m.memory_config.buffer_size 0, m)) := by
  refine ⟨?_, ?_⟩ <;> intro h <;> simp only [MemoryManager.allocate, h]

/-- The pool/strategy invariant: the pool field is `some` (possibly an
empty queue) if and only if the default strategy is PoolBased. -/
def poolInvariant (m : MemoryManager) : Prop :=
  m.pool.isSome ↔
    m.default_allocation_strategy = AllocationStrategy.PoolBased

instance (m : MemoryManager) : Decidable (poolInvariant m) := by
  unfold poolInvariant
  infer_instance

/-- C5: Invariant preserved by construction and by every allocate and
deallocate call: the pool field is Some (possibly an empty queue) if
and only if the manager's default strategy is PoolBased, and None
otherwise; consequently, for every manager produced by construction,
the ResourceAllocationError branches of allocate (without override or
with a PoolBased override on a PoolBased-default manager) and
deallocate are unreachable. -/
theorem pool_invariant_spec :
    (∀ app cfg m, MemoryManager.new app cfg = some (Except.ok m) →
      poolInvariant m) ∧
    (∀ m ov size b m', poolInvariant m →
      m.allocate ov size = Except.ok (b, m') →
      poolInvariant m') ∧
    (∀ m buf m', poolInvariant m → m.deallocate buf = Except.ok m' →
      poolInvariant m') ∧
    (∀ m size, poolInvariant m →
      ∃ r, m.allocate none size = Except.ok r) ∧
    (∀ m size, poolInvariant m →
      m.default_allocation_strategy = AllocationStrategy.PoolBased →
      ∃ r, m.allocate (some AllocationStrategy.PoolBased) size =
        Except.ok r) ∧
    (∀ m buf, poolInvariant m →
      ∃ m', m.deallocate buf = Except.ok m') := by
  refine ⟨?_, ?_, ?_, ?_, ?_, ?_⟩
  · intro app cfg m hm
    cases app <;>
      simp only [MemoryManager.new, selectStrategy, Option.some.injEq,
        Except.ok.injEq, reduceCtorEq] at hm
    case WebApp | ApiBackend =>
      rcases hb : cfg.buffer_size with _ | k
      · rw [hb] at hm; simp at hm
      · rw [hb] at hm
        simp only [Nat.succ_ne_zero, if_neg, if_false,
          Option.some.injEq, Except.ok.injEq] at hm
        subst hm
        simp [poolInvariant]
    case DesktopApp | AutomationScript | EmbeddedSystem =>
      subst hm
      simp [poolInvariant]
  · intro m ov size b m' hinv halloc
    rcases hs : ov.getD m.default_allocation_strategy with _ | _ | _ <;>
      simp only [MemoryManager.allocate, hs] at halloc
    · simp only [Except.ok.injEq, Prod.mk.injEq] at halloc
      exact halloc.2 ▸ hinv
    · cases hp : m.pool with
      | none => rw [hp] at halloc; simp at halloc
      | some pool =>
        rw [hp] at halloc
        have hd : m.default_allocation_strategy =
            AllocationStrategy.PoolBased := hinv.mp (by simp [hp])
        cases pool with
        | nil =>
          simp only [Except.ok.injEq, Prod.mk.injEq] at halloc
          exact halloc.2 ▸ hinv
        | cons x rest =>
          simp only [Except.ok.injEq, Prod.mk.injEq] at halloc
          rcases halloc with ⟨_, hm'⟩
          subst hm'
          simp [poolInvariant, hd]
    · simp only [Except.ok.injEq, Prod.mk.injEq] at halloc
      exact halloc.2 ▸ hinv
  · intro m buf m' hinv hdealloc
    rcases hs : m.default_allocation_strategy with _ | _ | _ <;>
      simp only [MemoryManager.deallocate, hs] at hdealloc
    · exact (Except.ok.inj hdealloc) ▸ hinv
    · cases hp : m.pool with
      | none => rw [hp] at hdealloc; simp at hdealloc
      | some pool =>
        rw [hp] at hdealloc
        have hm' := Except.ok.inj hdealloc
        subst hm'
        simp [poolInvariant, hs]
    · exact (Except.ok.inj hdealloc) ▸ hinv
  · intro m size hinv
    rcases hs : m.default_allocation_strategy with _ | _ | _ <;>
      simp only [MemoryManager.allocate, Option.getD_none, hs]
    · exact ⟨_, rfl⟩
    · rcases Option.isSome_iff_exists.mp (hinv.mpr hs) with ⟨pool, hp⟩
      rw [hp]
      cases pool <;> exact ⟨_, rfl⟩
    · exact ⟨_, rfl⟩
  · intro m size hinv hd
    rcases Option.isSome_iff_exists.mp (hinv.mpr hd) with ⟨pool, hp⟩
    simp only [MemoryManager.allocate, Option.getD_some, hp]
    cases pool <;> exact ⟨_, rfl⟩
  · intro m buf hinv
    rcases hs : m.default_allocation_strategy with _ | _ | _ <;>
      simp only [MemoryManager.deallocate, hs]
    · exact ⟨_, rfl⟩
    · rcases Option.isSome_iff_exists.mp (hinv.mpr hs) with ⟨pool, hp⟩
      rw [hp]
      exact ⟨_, rfl⟩
    · exact ⟨_, rfl⟩

/-- A run of N pairs of `allocate` (no override) each immediately
followed by `deallocate` of the returned buffer. -/
def allocDeallocPairs (size : Nat) :
    MemoryManager → Nat → Except CoreError MemoryManager
  | m, 0 => Except.ok m
  | m, n + 1 =>
    match m.allocate none size with
    | Except.ok (buf, m1) =>
      match m1.deallocate buf with
      | Except.ok m2 => allocDeallocPairs size m2 n
      | Except.error e => Except.error e
    | Except.error e => Except.error e

/-- One allocate/deallocate pair on a PoolBased manager with a
non-empty pool rotates the pool: the front buffer moves to the back,
preserving the length. -/
theorem allocDealloc_pair_rotates (m : MemoryManager) (size : Nat)
    (b : Buffer) (rest : List Buffer)
    (hd : m.default_allocation_strategy = AllocationStrategy.PoolBased)
    (hp : m.pool = some (b :: rest)) :
    ∃ m1 : MemoryManager,
      m.allocate none size = Except.ok (b, m1) ∧
      m1.deallocate b =
        Except.ok { m with pool := some (rest ++ [b]) } := by
  refine ⟨{ m with pool := some rest }, ?_, ?_⟩
  · simp only [MemoryManager.allocate, Option.getD_none, hd, hp]
  · simp only [MemoryManager.deallocate, hd]

/-- C8: For every PoolBased manager and every N such that the pool is
never exhausted during the run, executing N pairs of allocate (no
override) immediately followed by deallocate of the returned buffer
leaves the pool length equal to its initial length.  (A non-empty
initial pool is never exhausted: each pair pops one buffer and pushes
one back, preserving the length at every step.) -/
theorem round_trip_net_neutral (m : MemoryManager) (size N : Nat)
    (bufs : List Buffer)
    (hd : m.default_allocation_strategy = AllocationStrategy.PoolBased)
    (hp : m.pool = some bufs) (hne : bufs ≠ []) :
    ∃ m' bufs', allocDeallocPairs size m N = Except.ok m' ∧
      m'.pool = some bufs' ∧ bufs'.length = bufs.length := by
  induction N generalizing m bufs with
  | zero => exact ⟨m, bufs, rfl, hp, rfl⟩
  | succ n ih =>
    cases bufs with
    | nil => exact absurd rfl hne
    | cons b rest =>
      rcases allocDealloc_pair_rotates m size b rest hd hp with
        ⟨m1, halloc, hdealloc⟩
      have hstep : allocDeallocPairs size m (n + 1) =
          allocDeallocPairs size { m with pool := some (rest ++ [b]) } n := by
        simp only [allocDeallocPairs, halloc, hdealloc]
      rcases ih { m with pool := some (rest ++ [b]) } (rest ++ [b]) hd rfl
          (by simp) with ⟨m', bufs', hrun, hp', hlen⟩
      refine ⟨m', bufs', hstep ▸ hrun, hp', ?_⟩
      simpa using hlen

/-- C6: For every requested value x that is nonzero and within the
safety bound, define_buffer_size(app, x), define_pool_size(app, x) and
define_multiplier(app, x) return x verbatim for every app; for a
requested value of zero they return the profile defaults —
buffer_size/pool_size: WebApp 16 MiB/150 MiB, ApiBackend 8 MiB/100 MiB,
DesktopApp 4 MiB/50 MiB, AutomationScript 2 MiB/30 MiB, EmbeddedSystem
512 KiB/5 MiB, multiplier 1 for every supported profile — and 0 for an
unsupported profile. -/
theorem sizing_defaults_spec :
    (∀ app x, x ≠ 0 → x ≤ USIZE_MAX / 2 →
      define_buffer_size app x = SizeOutcome.value x) ∧
    (∀ app x, x ≠ 0 → x ≤ USIZE_MAX / 2 →
      define_pool_size app x = SizeOutcome.value x) ∧
    (∀ app x, x ≠ 0 → x ≤ U8_MAX →
      define_multiplier app x = SizeOutcome.value x) ∧
    (define_buffer_size ApplicationType.WebApp 0 =
        SizeOutcome.value (16 * 1024 * 1024) ∧
      define_buffer_size ApplicationType.ApiBackend 0 =
        SizeOutcome.value (8 * 1024 * 1024) ∧
      define_buffer_size ApplicationType.DesktopApp 0 =
        SizeOutcome.value (4 * 1024 * 1024) ∧
      define_buffer_size ApplicationType.AutomationScript 0 =
        SizeOutcome.value (2 * 1024 * 1024) ∧
      define_buffer_size ApplicationType.EmbeddedSystem 0 =
        SizeOutcome.value (512 * 1024) ∧
      define_buffer_size ApplicationType.Unsupported 0 =
        SizeOutcome.value 0) ∧
    (define_pool_size ApplicationType.WebApp 0 =
        SizeOutcome.value (150 * 1024 * 1024) ∧
      define_pool_size ApplicationType.ApiBackend 0 =
        SizeOutcome.value (100 * 1024 * 1024) ∧
      define_pool_size ApplicationType.DesktopApp 0 =
        SizeOutcome.value (50 * 1024 * 1024) ∧
      define_pool_size ApplicationType.AutomationScript 0 =
        SizeOutcome.value (30 * 1024 * 1024) ∧
      define_pool_size ApplicationType.EmbeddedSystem 0 =
        SizeOutcome.value (5 * 1024 * 1024) ∧
      define_pool_size ApplicationType.Unsupported 0 =
        SizeOutcome.value 0) ∧
    ((∀ app, app ≠ ApplicationType.Unsupported →
        define_multiplier app 0 = SizeOutcome.value 1) ∧
      define_multiplier ApplicationType.Unsupported 0 =
        SizeOutcome.value 0) := by
  refine ⟨?_, ?_, ?_, by decide, by decide, ?_, by decide⟩
  · intro app x hx hbound
    rw [define_buffer_size.eq_def, if_neg (by omega), if_pos hx]
  · intro app x hx hbound
    rw [define_pool_size.eq_def, if_neg (by omega), if_pos hx]
  · intro app x hx hbound
    rw [define_multiplier.eq_def, if_neg (by omega), if_pos hx]
  · intro app happ
    cases app <;> first | decide | exact absurd rfl happ

/-- C7 (code evaluation at the failing input): for a requested
buffer_size or pool_size just above the safety bound usize::MAX / 2,
the sizing functions enter the interactive terminal fallback
`usize_max_value` — which prints a prompt and blocks reading stdin —
instead of returning a typed SizingError. -/
theorem sizing_overbound_interactive :
    define_buffer_size ApplicationType.WebApp (2 ^ 63) =
      SizeOutcome.interactivePrompt ∧
    define_pool_size ApplicationType.WebApp (2 ^ 63) =
      SizeOutcome.interactivePrompt := by
  constructor <;> rfl

/-- C10: Construction performs no check that buffer_size and pool_size
are strictly positive: under the precondition buffer_size > 0,
construct is total (returns Ok or a ConfigurationError, never panics)
for every ApplicationType and pool_size; but for a pool-based profile
(WebApp or ApiBackend) with buffer_size == 0, the pool-sizing division
pool_size / buffer_size is a division by zero, so construction does
not return at all (modelled as `none`). -/
theorem construction_no_positivity_check :
    (∀ app cfg, 0 < cfg.buffer_size →
      ∃ r, MemoryManager.new app cfg = some r) ∧
    (∀ cfg, cfg.buffer_size = 0 →
      MemoryManager.new ApplicationType.WebApp cfg = none ∧
      MemoryManager.new ApplicationType.ApiBackend cfg = none) ∧
    (∃ cfg m, cfg.buffer_size = 0 ∧ cfg.pool_size = 0 ∧
      MemoryManager.new ApplicationType.DesktopApp cfg =
        some (Except.ok m)) := by
  refine ⟨?_, ?_, ?_⟩
  · intro app cfg h
    have hne : cfg.buffer_size ≠ 0 := Nat.pos_iff_ne_zero.mp h
    cases app
    case WebApp | ApiBackend =>
      exact ⟨Except.ok
        { default_allocation_strategy := AllocationStrategy.PoolBased,
          pool := some (List.replicate (cfg.pool_size / cfg.buffer_size)
            (List.replicate cfg.buffer_size 0)),
          memory_config := cfg },
        by simp [MemoryManager.new, selectStrategy, if_neg hne]⟩
    case DesktopApp | AutomationScript =>
      exact ⟨Except.ok
        { default_allocation_strategy := AllocationStrategy.Standard,
          pool := none, memory_config := cfg },
        by simp [MemoryManager.new, selectStrategy]⟩
    case EmbeddedSystem =>
      exact ⟨Except.ok
        { default_allocation_strategy := AllocationStrategy.CustomEmbedded,
          pool := none, memory_config := cfg },
        by simp [MemoryManager.new, selectStrategy]⟩
    case Unsupported =>
      exact ⟨Except.error (CoreError.ConfigurationError
          "Tipo di applicazione non supportato considera implementazione"),
        by simp [MemoryManager.new, selectStrategy]⟩
  · intro cfg h
    constructor <;> simp [MemoryManager.new, selectStrategy, h]
  · exact ⟨{ buffer_size := 0, pool_size := 0, memory_scale := 0 },
      { default_allocation_strategy := AllocationStrategy.Standard,
        pool := none,
        memory_config :=
          { buffer_size := 0, pool_size := 0, memory_scale := 0 } },
      rfl, rfl, by rfl⟩

/-- Concrete sizing configuration used by the witness theorems:
buffer_size 4, pool_size 10, so a PoolBased pool holds 10 / 4 = 2
buffers. -/
def cfgTest : MemoryConfig :=
  { buffer_size := 4, pool_size := 10, memory_scale := 1 }

/-- The manager produced by `MemoryManager.new ApplicationType.WebApp
cfgTest`. -/
def mgrPoolTest : MemoryManager :=
  { default_allocation_strategy := AllocationStrategy.PoolBased
    pool := some (List.replicate 2 (List.replicate 4 0))
    memory_config := cfgTest }

/-- A Standard-default manager with no pool. -/
def mgrStdTest : MemoryManager :=
  { default_allocation_strategy := AllocationStrategy.Standard
    pool := none
    memory_config := cfgTest }

/-- Witness for C1 at WebApp with cfgTest. -/
theorem construction_strategy_mapping_witness :
    ∃ m, MemoryManager.new ApplicationType.WebApp cfgTest =
      some (Except.ok m) ∧
      m.default_allocation_strategy = AllocationStrategy.PoolBased :=
  (construction_strategy_mapping ApplicationType.WebApp cfgTest
    (by decide)).1 (Or.inl rfl)

/-- Witness for C2 at WebApp with cfgTest. -/
theorem construction_pool_contents_witness :
    ∃ bufs, mgrPoolTest.pool = some bufs ∧
      bufs.length = cfgTest.pool_size / cfgTest.buffer_size ∧
      (∀ b ∈ bufs, b = List.replicate cfgTest.buffer_size 0) ∧
      (cfgTest.pool_size < cfgTest.buffer_size → bufs = []) :=
  (construction_pool_contents ApplicationType.WebApp cfgTest (by decide)
    mgrPoolTest (by rfl)).1 (by rfl)

/-- Witness for C3: allocating 7 bytes from the two-buffer pool returns
the front 4-byte buffer. -/
theorem allocate_poolBased_spec_witness :
    mgrPoolTest.allocate none 7 =
      Except.ok (List.replicate 4 0,
        { mgrPoolTest with pool := some [List.replicate 4 0] }) :=
  (allocate_poolBased_spec mgrPoolTest none 7 (by rfl)).1
    (List.replicate 4 0) [List.replicate 4 0] (by rfl)

/-- Witness for C4: returning a 2-byte buffer to the PoolBased manager
appends it behind the two 4-byte buffers. -/
theorem deallocate_default_dispatch_witness :
    (mgrPoolTest.deallocate [1, 2] =
      Except.ok
        { mgrPoolTest with
          pool := some (List.replicate 2 (List.replicate 4 0) ++ [[1, 2]]) } ∧
      (List.replicate 2 (List.replicate 4 0) ++ [[1, 2]]).length =
        (List.replicate 2 (List.replicate 4 0)).length + 1) ∧
    mgrStdTest.deallocate [1, 2] = Except.ok mgrStdTest :=
  ⟨(deallocate_default_dispatch mgrPoolTest [1, 2]).1
      (List.replicate 2 (List.replicate 4 0)) rfl rfl,
    (deallocate_default_dispatch mgrStdTest [1, 2]).2 (Or.inl rfl)⟩

/-- Witness for C5 at the concrete managers. -/
theorem pool_invariant_spec_witness :
    poolInvariant mgrPoolTest ∧
    (∃ r, mgrPoolTest.allocate none 7 = Except.ok r) ∧
    (∃ m', mgrPoolTest.deallocate (List.replicate 4 0) =
      Except.ok m') :=
  ⟨pool_invariant_spec.1 ApplicationType.WebApp cfgTest mgrPoolTest
      (by rfl),
    pool_invariant_spec.2.2.2.1 mgrPoolTest 7 (by decide),
    pool_invariant_spec.2.2.2.2.2 mgrPoolTest (List.replicate 4 0)
      (by decide)⟩

/-- Witness for C6 at concrete requested values. -/
theorem sizing_defaults_spec_witness :
    define_buffer_size ApplicationType.WebApp 4096 =
      SizeOutcome.value 4096 ∧
    define_pool_size ApplicationType.ApiBackend 4096 =
      SizeOutcome.value 4096 ∧
    define_multiplier ApplicationType.DesktopApp 3 =
      SizeOutcome.value 3 ∧
    define_multiplier ApplicationType.EmbeddedSystem 0 =
      SizeOutcome.value 1 :=
  ⟨sizing_defaults_spec.1 ApplicationType.WebApp 4096 (by decide)
      (by decide),
    sizing_defaults_spec.2.1 ApplicationType.ApiBackend 4096 (by decide)
      (by decide),
    sizing_defaults_spec.2.2.1 ApplicationType.DesktopApp 3 (by decide)
      (by decide),
    sizing_defaults_spec.2.2.2.2.2.1 ApplicationType.EmbeddedSystem
      (by decide)⟩

/-- Witness for C8: three allocate/deallocate pairs on the two-buffer
pool leave the pool length at 2. -/
theorem round_trip_net_neutral_witness :
    ∃ m' bufs', allocDeallocPairs 7 mgrPoolTest 3 = Except.ok m' ∧
      m'.pool = some bufs' ∧
      bufs'.length = (List.replicate 2 (List.replicate 4 0)).length :=
  round_trip_net_neutral mgrPoolTest 7 3
    (List.replicate 2 (List.replicate 4 0)) rfl rfl (by decide)

/-- Witness for C9: a Standard allocation of 7 bytes and a
CustomEmbedded allocation ignoring the requested size. -/
theorem allocate_standard_custom_spec_witness :
    mgrStdTest.allocate none 7 =
      Except.ok (List.replicate 7 0, mgrStdTest) ∧
    mgrStdTest.allocate (some AllocationStrategy.CustomEmbedded) 7 =
      Except.ok (List.replicate cfgTest.buffer_size 0, mgrStdTest) :=
  ⟨(allocate_standard_custom_spec mgrStdTest none 7).1 (by rfl),
    (allocate_standard_custom_spec mgrStdTest
      (some AllocationStrategy.CustomEmbedded) 7).2 (by rfl)⟩

/-- Witness for C10: with buffer_size 4 construction returns; with
buffer_size 0 a pool-based profile panics (modelled `none`). -/
theorem construction_no_positivity_check_witness :
    (∃ r, MemoryManager.new ApplicationType.WebApp cfgTest = some r) ∧
    MemoryManager.new ApplicationType.WebApp
      { buffer_size := 0, pool_size := 10, memory_scale := 1 } = none :=
  ⟨construction_no_positivity_check.1 ApplicationType.WebApp cfgTest
      (by decide),
    (construction_no_positivity_check.2.1
      { buffer_size := 0, pool_size := 10, memory_scale := 1 } rfl).1⟩
